import Mathlib

/-!
# skpr/local-router: certificate manager

A shallow embedding of `internal/certificates/certificates.go`.

* Byte strings are an abstract type `B`; the Go standard-library routines the
  package calls (`encoding/pem`, `crypto/x509`, `crypto/tls`) are the fields of
  an environment `Env B`, so every general theorem holds for any behaviour of
  those routines.  Where a theorem needs a documented property of a library
  routine, the property is an explicit hypothesis.
* The file system is a map from path to content (`Disk B`); a path is
  readable exactly when it is present.
* Every nondeterministic outcome of a call (key generation, random serial
  draw, clock readings, success or failure of a file write) is supplied by
  an explicit oracle argument, so the embedded functions are pure.
* `path/filepath.Join` is modelled on slash-separated paths.
-/

namespace LocalRouter

/-! ## Paths: `path/filepath.Join` on a Unix host -/

/-- The elements of a path between its separators (`a//b` has an empty element). -/
def splitSlash : List Char → List (List Char)
  | [] => [[]]
  | c :: cs =>
    if c = '/' then [] :: splitSlash cs
    else
      match splitSlash cs with
      | [] => [[c]]
      | h :: t => (c :: h) :: t

/-- One step of `filepath.Clean` over the elements read so far; `stack` holds the
elements written, the last one first. Empty and `.` elements are dropped, a `..`
removes the element before it, is dropped at the root of a rooted path, and is kept
at the start of a relative path. -/
def cleanStep (rooted : Bool) (stack : List (List Char)) (e : List Char) : List (List Char) :=
  if e = [] ∨ e = ['.'] then stack
  else if e = ['.', '.'] then
    match stack with
    | [] => if rooted then [] else [e]
    | top :: rest => if top = ['.', '.'] then e :: stack else rest
  else e :: stack

/-- Elements joined by single separators. -/
def joinSlash : List (List Char) → List Char
  | [] => []
  | [e] => e
  | e :: es => e ++ '/' :: joinSlash es

/-- Model of `filepath.Clean`: the shortest equivalent path; the empty path cleans to `.`. -/
def Clean (path : List Char) : List Char :=
  let rooted : Bool := path.head? = some '/'
  let out := (if rooted then ['/'] else []) ++
    joinSlash (((splitSlash path).foldl (cleanStep rooted) []).reverse)
  if out = [] then ['.'] else out

/-- Model of `filepath.Join(dir, name)`: the non-empty arguments joined by a separator, cleaned. -/
def Join (dir name : String) : String :=
  if dir ≠ "" then ⟨Clean (dir.data ++ '/' :: name.data)⟩
  else if name ≠ "" then ⟨Clean name.data⟩
  else ""

/-! ## Data model -/

/-- Go `error` values, identified by their message. -/
abbrev Error := String

deriving instance DecidableEq for Except

/-- Model of `rsa.PublicKey`. -/
structure PublicKey where
  N : Nat
  E : Nat
deriving DecidableEq

/-- Model of `rsa.PrivateKey`: the public part, the private exponent and the prime factors. -/
structure PrivateKey where
  PublicKey : PublicKey
  D : Nat
  Primes : List Nat
deriving DecidableEq

/-- Model of `pkix.Name`, with the two attributes the package sets. -/
structure Name where
  Organization : List String := []
  CommonName : String := ""
deriving DecidableEq

/-- Model of `x509.Certificate`. A struct literal that does not mention a field leaves
it at the Go zero value, which is the default value here. `Raw` is the complete DER
encoding, present on a certificate that `x509.ParseCertificate` returned and absent on a
template. Times are nanoseconds since the epoch. -/
structure Certificate (B : Type) where
  Raw : Option B := none
  SerialNumber : Int := 0
  Issuer : Name := {}
  Subject : Name := {}
  NotBefore : Nat := 0
  NotAfter : Nat := 0
  KeyUsage : Nat := 0
  ExtKeyUsage : List Nat := []
  DNSNames : List String := []
  BasicConstraintsValid : Bool := false
  IsCA : Bool := false
  PublicKey : Option PublicKey := none
deriving DecidableEq

/-- Model of `tls.Certificate`. `tls.X509KeyPair` never returns an empty chain, so the
chain `Certificate [][]byte` is its first element `Certificate0` (what the source reads as
`cert.Certificate[0]`) and the rest. The private key is an RSA key, the only kind the
package creates or inspects. -/
structure TLSCertificate (B : Type) where
  Certificate0 : B
  CertificateRest : List B := []
  PrivateKey : PrivateKey
deriving DecidableEq

/-- Model of `pem.Block` (no headers are used); `BlockType` is the field `Type`. -/
structure PemBlock (B : Type) where
  BlockType : String
  Bytes : B
deriving DecidableEq

/-- The standard-library routines the package calls, as functions on byte strings. -/
structure Env (B : Type) where
  /-- Function `pem.EncodeToMemory` of a block with the given type and bytes. -/
  pemEncode : String → B → B
  /-- Function `pem.Decode`: the first PEM block of the input, if there is one. -/
  pemDecode : B → Option (PemBlock B)
  /-- Function `x509.ParseCertificate`. -/
  ParseCertificate : B → Except Error (Certificate B)
  /-- Function `x509.ParsePKCS1PrivateKey`. -/
  ParsePKCS1PrivateKey : B → Except Error PrivateKey
  /-- Function `x509.MarshalPKCS1PrivateKey`. -/
  MarshalPKCS1PrivateKey : PrivateKey → B
  /-- Function `x509.CreateCertificate template parent pub priv`. -/
  CreateCertificate : Certificate B → Certificate B → PublicKey → PrivateKey → Except Error B
  /-- Function `tls.X509KeyPair certPEMBlock keyPEMBlock`. -/
  X509KeyPair : B → B → Except Error (TLSCertificate B)

/-- The file system: the content of each path that exists. -/
abbrev Disk (B : Type) := String → Option B

/-- The disk after `path` has received content `data`. -/
def Disk.write {B : Type} (d : Disk B) (path : String) (data : B) : Disk B :=
  fun q => if q = path then some data else d q

/-- What the environment decides for one `os.WriteFile` call: it succeeds, or it fails
with an error, leaving the file untouched (`left = none`) or holding partial content. -/
inductive WriteOutcome (B : Type) where
  | ok
  | failed (err : Error) (left : Option B)
deriving DecidableEq

/-- Effects of a call that reach outside the process, in program order. -/
inductive Event (B : Type) where
  /-- A line printed by `log.Printf`. -/
  | log (msg : String)
  /-- A call of `rsa.GenerateKey`. -/
  | generateKey
  /-- A call of `rand.Int`. -/
  | randInt
  /-- A call of `x509.CreateCertificate`. -/
  | createCertificate
  /-- A call of `os.WriteFile path data perm`. -/
  | writeFile (path : String) (data : B) (perm : Nat)
deriving DecidableEq

/-- Model of `os.WriteFile`: the error returned, if any, and the disk afterwards. -/
def WriteFile {B : Type} (d : Disk B) (path : String) (data : B) :
    WriteOutcome B → Option Error × Disk B
  | .ok => (none, d.write path data)
  | .failed err none => (some err, d)
  | .failed err (some part) => (some err, d.write path part)

/-- Model of `tls.LoadX509KeyPair`: read both files, then pair them. -/
def LoadX509KeyPair {B : Type} (E : Env B) (d : Disk B) (certFile keyFile : String) :
    Except Error (TLSCertificate B) :=
  match d certFile with
  | none => .error ("open " ++ certFile ++ ": no such file or directory")
  | some certPEMBlock =>
    match d keyFile with
    | none => .error ("open " ++ keyFile ++ ": no such file or directory")
    | some keyPEMBlock => E.X509KeyPair certPEMBlock keyPEMBlock

/-! ### Constants of `crypto/x509` and `time` -/

def KeyUsageDigitalSignature : Nat := 1
def KeyUsageKeyEncipherment : Nat := 4
def KeyUsageCertSign : Nat := 32
def KeyUsageCRLSign : Nat := 64
def ExtKeyUsageServerAuth : Nat := 1
/-- Constant `time.Hour`, in nanoseconds. -/
def Hour : Nat := 3600000000000

/-! ## The package `certificates` -/

def caCertFile : String := "ca-cert.pem"
def caKeyFile : String := "ca-key.pem"

/-- The `Manager` struct. The mutex is not part of the sequential state; `cache` is the
map `NewManager` allocates. -/
structure Manager (B : Type) where
  caCert : Certificate B
  caKey : PrivateKey
  path : String
  cache : String → Option (TLSCertificate B)

/-- Outcomes the environment supplies to one run of the CA generation code. -/
structure CAOracle (B : Type) where
  /-- Result of `rsa.GenerateKey(rand.Reader, 2048)`. -/
  key : Except Error PrivateKey
  /-- The two readings of `time.Now()`. -/
  now1 : Nat
  now2 : Nat
  writeCert : WriteOutcome B
  writeKey : WriteOutcome B

/-- What `loadOrCreateCA` returns, the disk it leaves and the effects it had. -/
structure CAResult (B : Type) where
  result : Except Error (Certificate B × PrivateKey)
  disk : Disk B
  trace : List (Event B)

/-- The template of the CA certificate (lines 133-146). -/
def caTemplate (B : Type) (now1 now2 : Nat) : Certificate B :=
  { SerialNumber := 1
    Subject := { Organization := ["Local Dev CA"], CommonName := "Local Dev CA" }
    NotBefore := now1
    NotAfter := now2 + 10 * 365 * 24 * Hour
    KeyUsage := KeyUsageCertSign ||| KeyUsageDigitalSignature ||| KeyUsageCRLSign
    BasicConstraintsValid := true
    IsCA := true }

/-- Lines 128-165 of `loadOrCreateCA`: generate a key, self-sign the template, write the
certificate file, write the key file, return the template and the key. -/
def createCA {B : Type} (E : Env B) (disk : Disk B) (certPath keyPath : String)
    (o : CAOracle B) : CAResult B :=
  match o.key with
  | .error err => ⟨.error err, disk, [.generateKey]⟩
  | .ok caKey =>
    let tmpl := caTemplate B o.now1 o.now2
    match E.CreateCertificate tmpl tmpl caKey.PublicKey caKey with
    | .error err => ⟨.error err, disk, [.generateKey, .createCertificate]⟩
    | .ok derBytes =>
      let caCert := tmpl
      let certPEM := E.pemEncode "CERTIFICATE" derBytes
      match WriteFile disk certPath certPEM o.writeCert with
      | (some err, d1) =>
        ⟨.error ("failed to write CA file: " ++ err), d1,
          [.generateKey, .createCertificate, .writeFile certPath certPEM 0o644]⟩
      | (none, d1) =>
        let keyPEM := E.pemEncode "RSA PRIVATE KEY" (E.MarshalPKCS1PrivateKey caKey)
        match WriteFile d1 keyPath keyPEM o.writeKey with
        | (some err, d2) =>
          ⟨.error ("failed to write private file: " ++ err), d2,
            [.generateKey, .createCertificate, .writeFile certPath certPEM 0o644,
             .writeFile keyPath keyPEM 0o600]⟩
        | (none, d2) =>
          ⟨.ok (caCert, caKey), d2,
            [.generateKey, .createCertificate, .writeFile certPath certPEM 0o644,
             .writeFile keyPath keyPEM 0o600]⟩

/-- The function `loadOrCreateCA`. -/
def loadOrCreateCA {B : Type} (E : Env B) (disk : Disk B) (path : String)
    (o : CAOracle B) : CAResult B :=
  let certPath := Join path caCertFile
  let keyPath := Join path caKeyFile
  match disk certPath with
  | some certPEM =>
    match disk keyPath with
    | some keyPEM =>
      match E.pemDecode certPEM with
      | none => ⟨.error "failed to decode CA cert PEM", disk, []⟩
      | some block =>
        match E.ParseCertificate block.Bytes with
        | .error err => ⟨.error err, disk, []⟩
        | .ok caCert =>
          match E.pemDecode keyPEM with
          | none => ⟨.error "failed to decode CA key PEM", disk, []⟩
          | some block =>
            match E.ParsePKCS1PrivateKey block.Bytes with
            | .error err => ⟨.error err, disk, []⟩
            | .ok caKey => ⟨.ok (caCert, caKey), disk, []⟩
    | none => createCA E disk certPath keyPath o
  | none => createCA E disk certPath keyPath o

/-- What `NewManager` returns, the disk it leaves and the effects it had. -/
structure NewManagerResult (B : Type) where
  result : Except Error (Manager B)
  disk : Disk B
  trace : List (Event B)

/-- The function `NewManager`. -/
def NewManager {B : Type} (E : Env B) (disk : Disk B) (path : String)
    (o : CAOracle B) : NewManagerResult B :=
  let r := loadOrCreateCA E disk path o
  match r.result with
  | .error err => ⟨.error ("failed to load or create CA: " ++ err), r.disk, r.trace⟩
  | .ok (caCert, caKey) =>
    ⟨.ok { cache := fun _ => none, caCert := caCert, caKey := caKey, path := path },
      r.disk, r.trace⟩

/-- Outcomes the environment supplies to one run of `generateCertSignedByCA`. -/
structure IssueOracle where
  /-- Result of `rsa.GenerateKey(rand.Reader, 2048)`. -/
  key : Except Error PrivateKey
  /-- Result of reading entropy for `rand.Int`: an error, or the number drawn before
  reduction to the requested range. -/
  entropy : Except Error Nat
  /-- The two readings of `time.Now()`. -/
  now1 : Nat
  now2 : Nat

/-- Model of `rand.Int(rand.Reader, max)`: a value in the range from `0` up to, not
including, `max`. -/
def randInt (entropy : Except Error Nat) (max : Nat) : Except Error Nat :=
  match entropy with
  | .error err => .error err
  | .ok n => .ok (n % max)

/-- The template of a leaf certificate (lines 179-190). -/
def leafTemplate (B : Type) (domain : String) (serialNumber : Nat) (now1 now2 : Nat) :
    Certificate B :=
  { SerialNumber := serialNumber
    Subject := { CommonName := domain }
    NotBefore := now1
    NotAfter := now2 + 365 * 24 * Hour
    KeyUsage := KeyUsageDigitalSignature ||| KeyUsageKeyEncipherment
    ExtKeyUsage := [ExtKeyUsageServerAuth]
    DNSNames := [domain]
    IsCA := false }

/-- The method `Manager.generateCertSignedByCA`, with the effects it had. -/
def generateCertSignedByCA {B : Type} (E : Env B) (m : Manager B) (domain : String)
    (o : IssueOracle) : Except Error (TLSCertificate B) × List (Event B) :=
  match o.key with
  | .error err => (.error err, [.generateKey])
  | .ok priv =>
    match randInt o.entropy (1 <<< 62) with
    | .error err => (.error err, [.generateKey, .randInt])
    | .ok serialNumber =>
      let template := leafTemplate B domain serialNumber o.now1 o.now2
      match E.CreateCertificate template m.caCert priv.PublicKey m.caKey with
      | .error err => (.error err, [.generateKey, .randInt, .createCertificate])
      | .ok derBytes =>
        let certPEM := E.pemEncode "CERTIFICATE" derBytes
        let keyPEM := E.pemEncode "RSA PRIVATE KEY" (E.MarshalPKCS1PrivateKey priv)
        (E.X509KeyPair certPEM keyPEM, [.generateKey, .randInt, .createCertificate])

/-- Outcomes the environment supplies to one call of `GetCertificate`. -/
structure GetOracle (B : Type) where
  issue : IssueOracle
  writeCert : WriteOutcome B
  writeKey : WriteOutcome B

/-- What `GetCertificate` returns, the manager and disk it leaves and the effects it had. -/
structure GetResult (B : Type) where
  result : Except Error (TLSCertificate B)
  manager : Manager B
  disk : Disk B
  trace : List (Event B)

/-- The manager with `cert` stored in the cache under `domain`. -/
def Manager.store {B : Type} (m : Manager B) (domain : String) (cert : TLSCertificate B) :
    Manager B :=
  { m with cache := fun d => if d = domain then some cert else m.cache d }

/-- Lines 73-92 of `GetCertificate`: issue, write both files, cache, return. `pre` holds
the effects of the call so far. -/
def issueAndStore {B : Type} (E : Env B) (m : Manager B) (disk : Disk B)
    (domain certFile keyFile : String) (o : GetOracle B) (pre : List (Event B)) : GetResult B :=
  let pre := pre ++ [.log ("Generating certificate for " ++ domain ++ " signed by local CA...\n")]
  match generateCertSignedByCA E m domain o.issue with
  | (.error err, evs) => ⟨.error err, m, disk, pre ++ evs⟩
  | (.ok cert, evs) =>
    let certPEM := E.pemEncode "CERTIFICATE" cert.Certificate0
    match WriteFile disk certFile certPEM o.writeCert with
    | (some err, d1) => ⟨.error err, m, d1, pre ++ evs ++ [.writeFile certFile certPEM 0o644]⟩
    | (none, d1) =>
      let keyPEM := E.pemEncode "RSA PRIVATE KEY" (E.MarshalPKCS1PrivateKey cert.PrivateKey)
      match WriteFile d1 keyFile keyPEM o.writeKey with
      | (some err, d2) =>
        ⟨.error err, m, d2,
          pre ++ evs ++ [.writeFile certFile certPEM 0o644, .writeFile keyFile keyPEM 0o600]⟩
      | (none, d2) =>
        ⟨.ok cert, m.store domain cert, d2,
          pre ++ evs ++ [.writeFile certFile certPEM 0o644, .writeFile keyFile keyPEM 0o600]⟩

/-- Lines 47-50 of `GetCertificate`: the requested server name, or `localhost` when it
is empty. -/
def requestedDomain (serverName : String) : String :=
  if serverName = "" then "localhost" else serverName

/-- Line 60 of `GetCertificate`: the certificate file of a domain. -/
def leafCertFile (path domain : String) : String := Join path (domain ++ "-cert.pem")

/-- Line 61 of `GetCertificate`: the key file of a domain. -/
def leafKeyFile (path domain : String) : String := Join path (domain ++ "-key.pem")

/-- The method `Manager.GetCertificate`; `serverName` is `clientHello.ServerName`. -/
def GetCertificate {B : Type} (E : Env B) (m : Manager B) (disk : Disk B)
    (serverName : String) (o : GetOracle B) : GetResult B :=
  let domain := requestedDomain serverName
  match m.cache domain with
  | some cert => ⟨.ok cert, m, disk, []⟩
  | none =>
    let certFile := leafCertFile m.path domain
    let keyFile := leafKeyFile m.path domain
    match disk certFile with
    | some _ =>
      match LoadX509KeyPair E disk certFile keyFile with
      | .ok cert => ⟨.ok cert, m.store domain cert, disk, []⟩
      | .error err =>
        issueAndStore E m disk domain certFile keyFile o
          [.log ("Failed to load cert from disk, regenerating: " ++ err)]
    | none => issueAndStore E m disk domain certFile keyFile o []

/-! ## Documented behaviour of the library routines

Properties of the standard library that some theorems below take as hypotheses. -/

/-- Documented behaviour of `x509.CreateCertificate` followed by
`x509.ParseCertificate`: the output parses; the parsed certificate carries the DER it
was parsed from, the serial number, subject, DNS names and extended key usages of the
template, its nine key-usage bits, `IsCA` as far as the basic constraints are encoded,
and the subject of the parent as issuer. -/
def CreateCertificateSpec {B : Type} (E : Env B) : Prop :=
  ∀ (t p : Certificate B) (pub : PublicKey) (priv : PrivateKey) (der : B),
    E.CreateCertificate t p pub priv = .ok der →
    ∃ c, E.ParseCertificate der = .ok c ∧ c.Raw = some der ∧
      c.SerialNumber = t.SerialNumber ∧ c.Issuer = p.Subject ∧ c.Subject = t.Subject ∧
      c.KeyUsage = t.KeyUsage % 512 ∧ c.ExtKeyUsage = t.ExtKeyUsage ∧
      c.DNSNames = t.DNSNames ∧ c.IsCA = (t.BasicConstraintsValid && t.IsCA)

/-- Documented behaviour of `tls.X509KeyPair` on a single `CERTIFICATE` block: the
first element of the chain is the content of the block. -/
def X509KeyPairSpec {B : Type} (E : Env B) : Prop :=
  ∀ (der keyPEM : B) (cert : TLSCertificate B),
    E.X509KeyPair (E.pemEncode "CERTIFICATE" der) keyPEM = .ok cert → cert.Certificate0 = der

/-- Documented behaviour of `pem.Decode` on the output of `pem.EncodeToMemory`. -/
def PemRoundTrip {B : Type} (E : Env B) : Prop :=
  ∀ (blockType : String) (b : B), E.pemDecode (E.pemEncode blockType b) = some ⟨blockType, b⟩

/-- Documented behaviour of `x509.ParsePKCS1PrivateKey` on the output of
`x509.MarshalPKCS1PrivateKey`. -/
def PKCS1RoundTrip {B : Type} (E : Env B) : Prop :=
  ∀ k : PrivateKey, E.ParsePKCS1PrivateKey (E.MarshalPKCS1PrivateKey k) = .ok k

/-- Both CA files decode as PEM and their blocks parse. -/
def caFilesParse {B : Type} (E : Env B) (certPEM keyPEM : B) : Prop :=
  ∃ b1 c b2 k, E.pemDecode certPEM = some b1 ∧ E.ParseCertificate b1.Bytes = .ok c ∧
    E.pemDecode keyPEM = some b2 ∧ E.ParsePKCS1PrivateKey b2.Bytes = .ok k

/-! ## A symbolic instance of the environment

Byte strings as terms: every encoder is a constructor, so decoding an encoding gives
back what was encoded, and bytes no encoder produced (`junk`) decode to nothing. -/

/-- What a DER certificate carries: the signed fields and the public half of the key
that signed them. -/
structure SymCert where
  SerialNumber : Int
  Issuer : Name
  Subject : Name
  NotBefore : Nat
  NotAfter : Nat
  KeyUsage : Nat
  ExtKeyUsage : List Nat
  DNSNames : List String
  BasicConstraintsValid : Bool
  IsCA : Bool
  SignedBy : PublicKey
  PublicKey : PublicKey
deriving DecidableEq

/-- Symbolic byte strings. -/
inductive SymBytes where
  | junk (n : Nat)
  | pkcs1 (k : PrivateKey)
  | der (c : SymCert)
  | pem (blockType : String) (body : SymBytes)
deriving DecidableEq

/-- DER times have a resolution of one second. -/
def truncSecond (t : Nat) : Nat := t / 1000000000 * 1000000000

/-- Symbolic `x509.ParseCertificate`. -/
def symParseCertificate : SymBytes → Except Error (Certificate SymBytes)
  | .der c =>
    .ok { Raw := some (.der c)
          SerialNumber := c.SerialNumber
          Issuer := c.Issuer
          Subject := c.Subject
          NotBefore := c.NotBefore
          NotAfter := c.NotAfter
          KeyUsage := c.KeyUsage
          ExtKeyUsage := c.ExtKeyUsage
          DNSNames := c.DNSNames
          BasicConstraintsValid := c.BasicConstraintsValid
          IsCA := c.IsCA
          PublicKey := some c.PublicKey }
  | _ => .error "x509: malformed certificate"

/-- Symbolic `x509.CreateCertificate`: refuses a negative serial number, a DNS name
that is not ASCII and a signing key that does not belong to the parent public key; the
issuer of the result is the subject of the parent, times are cut to whole seconds, the
nine key-usage bits are kept, and `IsCA` is encoded only with the basic constraints. -/
def symCreateCertificate (template parent : Certificate SymBytes) (pub : PublicKey)
    (priv : PrivateKey) : Except Error SymBytes :=
  if template.SerialNumber < 0 then .error "x509: serial number must be positive"
  else if template.DNSNames.any (fun name => name.data.any (fun c => c.toNat ≥ 128)) then
    .error "x509: DNS name cannot be encoded as an IA5String"
  else if parent.PublicKey.isSome ∧ parent.PublicKey ≠ some priv.PublicKey then
    .error "x509: provided PrivateKey doesn't match parent's PublicKey"
  else
    .ok (.der
      { SerialNumber := template.SerialNumber
        Issuer := parent.Subject
        Subject := template.Subject
        NotBefore := truncSecond template.NotBefore
        NotAfter := truncSecond template.NotAfter
        KeyUsage := template.KeyUsage % 512
        ExtKeyUsage := template.ExtKeyUsage
        DNSNames := template.DNSNames
        BasicConstraintsValid := template.BasicConstraintsValid
        IsCA := template.BasicConstraintsValid && template.IsCA
        PublicKey := pub
        SignedBy := priv.PublicKey })

/-- Symbolic `tls.X509KeyPair`: the first input must be a `CERTIFICATE` block holding a
certificate, the second a private-key block holding the key of that certificate. -/
def symX509KeyPair (certPEMBlock keyPEMBlock : SymBytes) :
    Except Error (TLSCertificate SymBytes) :=
  match certPEMBlock with
  | .pem certType (.der c) =>
    if certType = "CERTIFICATE" then
      match keyPEMBlock with
      | .pem keyType (.pkcs1 k) =>
        if keyType = "RSA PRIVATE KEY" ∨ keyType = "PRIVATE KEY" then
          if c.PublicKey = k.PublicKey then
            .ok { Certificate0 := .der c, PrivateKey := k }
          else .error "tls: private key does not match public key"
        else .error "tls: failed to find any PEM data in key input"
      | _ => .error "tls: failed to find any PEM data in key input"
    else .error "tls: failed to find certificate PEM data in certificate input"
  | _ => .error "tls: failed to find any PEM data in certificate input"

/-- The symbolic environment. -/
def symEnv : Env SymBytes where
  pemEncode := .pem
  pemDecode := fun b =>
    match b with
    | .pem blockType body => some ⟨blockType, body⟩
    | _ => none
  ParseCertificate := symParseCertificate
  ParsePKCS1PrivateKey := fun b =>
    match b with
    | .pkcs1 k => .ok k
    | _ => .error "x509: failed to parse private key"
  MarshalPKCS1PrivateKey := .pkcs1
  CreateCertificate := symCreateCertificate
  X509KeyPair := symX509KeyPair

/-! ### Sample inputs -/

/-- An empty storage root. -/
def emptyDisk : Disk SymBytes := fun _ => none

def sampleCAKey : PrivateKey := ⟨⟨3233, 17⟩, 2753, [61, 53]⟩
def sampleLeafKey : PrivateKey := ⟨⟨3127, 3⟩, 2011, [53, 59]⟩

/-- A run of the CA generation in which everything succeeds. -/
def sampleCAOracle : CAOracle SymBytes :=
  { key := .ok sampleCAKey, now1 := 1700000000123456789, now2 := 1700000000123456999,
    writeCert := .ok, writeKey := .ok }

/-- A run of `GetCertificate` in which everything succeeds and the serial drawn is `n`. -/
def sampleGetOracle (n : Nat) : GetOracle SymBytes :=
  { issue := { key := .ok sampleLeafKey, entropy := .ok n,
               now1 := 1700000001000000001, now2 := 1700000001000000002 },
    writeCert := .ok, writeKey := .ok }

/-- The subject of the CA certificate. -/
def caSubject : Name := { Organization := ["Local Dev CA"], CommonName := "Local Dev CA" }

/-- A manager as `NewManager` returns it after generating the CA: the CA certificate is
the template, the cache is empty. -/
def sampleManager : Manager SymBytes :=
  { caCert := caTemplate SymBytes 1700000000123456789 1700000000123456999
    caKey := sampleCAKey
    path := "/mnt/certificates"
    cache := fun _ => none }

/-- The DER certificate that `sampleManager` issues for `domain` under
`sampleGetOracle n`, for `n` below `2 ^ 62`. -/
def sampleLeafDER (domain : String) (n : Nat) : SymCert :=
  { SerialNumber := n
    Issuer := caSubject
    Subject := { CommonName := domain }
    NotBefore := 1700000001000000000
    NotAfter := 1731536001000000000
    KeyUsage := 5
    ExtKeyUsage := [1]
    DNSNames := [domain]
    BasicConstraintsValid := false
    IsCA := false
    SignedBy := sampleCAKey.PublicKey
    PublicKey := sampleLeafKey.PublicKey }

/-- The `tls.Certificate` built from `sampleLeafDER` and the leaf key. -/
def sampleLeaf (domain : String) (n : Nat) : TLSCertificate SymBytes :=
  { Certificate0 := .der (sampleLeafDER domain n), PrivateKey := sampleLeafKey }

/-- A storage root holding an issued pair for `app.test`. -/
def leafDisk : Disk SymBytes := fun q =>
  if q = "/mnt/certificates/app.test-cert.pem" then
    some (.pem "CERTIFICATE" (.der (sampleLeafDER "app.test" 9)))
  else if q = "/mnt/certificates/app.test-key.pem" then
    some (.pem "RSA PRIVATE KEY" (.pkcs1 sampleLeafKey))
  else none

/-- A storage root whose certificate file for `app.test` is damaged. -/
def corruptLeafDisk : Disk SymBytes := fun q =>
  if q = "/mnt/certificates/app.test-cert.pem" then some (.junk 0)
  else if q = "/mnt/certificates/app.test-key.pem" then
    some (.pem "RSA PRIVATE KEY" (.pkcs1 sampleLeafKey))
  else none

/-- A storage root whose CA certificate file is damaged; the key file is intact. -/
def corruptCADisk : Disk SymBytes := fun q =>
  if q = "/mnt/certificates/ca-cert.pem" then some (.junk 0)
  else if q = "/mnt/certificates/ca-key.pem" then
    some (.pem "RSA PRIVATE KEY" (.pkcs1 sampleCAKey))
  else none

/-- The DER certificate that the CA generation produces under `sampleCAOracle`. -/
def sampleCADER : SymCert :=
  { SerialNumber := 1
    Issuer := caSubject
    Subject := caSubject
    NotBefore := 1700000000000000000
    NotAfter := 2015360000000000000
    KeyUsage := 97
    ExtKeyUsage := []
    DNSNames := []
    BasicConstraintsValid := true
    IsCA := true
    SignedBy := sampleCAKey.PublicKey
    PublicKey := sampleCAKey.PublicKey }

/-- The certificate `x509.ParseCertificate` returns for `sampleCADER`. -/
def sampleCACert : Certificate SymBytes :=
  { Raw := some (.der sampleCADER)
    SerialNumber := 1
    Issuer := caSubject
    Subject := caSubject
    NotBefore := 1700000000000000000
    NotAfter := 2015360000000000000
    KeyUsage := 97
    BasicConstraintsValid := true
    IsCA := true
    PublicKey := some sampleCAKey.PublicKey }

/-- A run of the CA generation in which key generation fails. -/
def failingCAOracle : CAOracle SymBytes :=
  { key := .error "rsa: entropy source failed", now1 := 1800000000000000000,
    now2 := 1800000000000000000, writeCert := .ok, writeKey := .ok }

/-- A storage root whose CA certificate is stored under the PEM label
`X509 CERTIFICATE`. -/
def relabelledCADisk : Disk SymBytes := fun q =>
  if q = "/mnt/certificates/ca-cert.pem" then
    some (.pem "X509 CERTIFICATE" (.der sampleCADER))
  else if q = "/mnt/certificates/ca-key.pem" then
    some (.pem "RSA PRIVATE KEY" (.pkcs1 sampleCAKey))
  else none

/-- The manager `NewManager` returns on `relabelledCADisk`. -/
def loadedManager : Manager SymBytes :=
  { cache := fun _ => none, caCert := sampleCACert, caKey := sampleCAKey,
    path := "/mnt/certificates" }

/-! ## Lemmas on paths -/

theorem splitSlash_ne_nil (a : List Char) : splitSlash a ≠ [] := by
  induction a with
  | nil => simp [splitSlash]
  | cons c cs ih =>
    unfold splitSlash
    split
    · simp
    · split <;> simp

theorem splitSlash_cons_of_ne (c : Char) (cs h : List Char) (t : List (List Char))
    (hc : c ≠ '/') (hs : splitSlash cs = h :: t) : splitSlash (c :: cs) = (c :: h) :: t := by
  simp [splitSlash, hc, hs]

theorem splitSlash_append (a b : List Char) (hb : '/' ∉ b) :
    ∃ init last, splitSlash a = init ++ [last] ∧ splitSlash (a ++ b) = init ++ [last ++ b] := by
  induction a with
  | nil =>
    refine ⟨[], [], by simp [splitSlash], ?_⟩
    induction b with
    | nil => simp [splitSlash]
    | cons c cs ih =>
      have hc : c ≠ '/' := fun h => hb (by simp [h])
      have hcs : '/' ∉ cs := fun h => hb (by simp [h])
      have ih2 := ih hcs
      simp only [List.nil_append] at ih2 ⊢
      exact splitSlash_cons_of_ne c cs cs [] hc ih2
  | cons c cs ih =>
    obtain ⟨init, last, h1, h2⟩ := ih
    by_cases hc : c = '/'
    · refine ⟨[] :: init, last, ?_, ?_⟩
      · simp [splitSlash, hc, h1]
      · simp [splitSlash, hc, h2]
    · cases init with
      | nil =>
        exact ⟨[], c :: last, splitSlash_cons_of_ne c cs last [] hc h1,
          splitSlash_cons_of_ne c (cs ++ b) (last ++ b) [] hc h2⟩
      | cons i0 irest =>
        exact ⟨(c :: i0) :: irest, last, splitSlash_cons_of_ne c cs i0 _ hc h1,
          splitSlash_cons_of_ne c (cs ++ b) i0 _ hc h2⟩

theorem joinSlash_concat (xs : List (List Char)) (e : List Char) :
    ∃ Y, joinSlash (xs ++ [e]) = Y ++ e := by
  induction xs with
  | nil => exact ⟨[], by simp [joinSlash]⟩
  | cons x xs ih =>
    obtain ⟨Y, hY⟩ := ih
    cases hxs : xs ++ [e] with
    | nil => simp at hxs
    | cons y ys =>
      refine ⟨x ++ '/' :: Y, ?_⟩
      simp only [List.cons_append, hxs, joinSlash]
      rw [← hxs, hY]
      simp

theorem cleanStep_real (rooted : Bool) (stack : List (List Char)) (e : List Char)
    (hlen : 3 ≤ e.length) : cleanStep rooted stack e = e :: stack := by
  have h0 : e ≠ [] := by
    intro h; rw [h] at hlen; simp at hlen
  have h1 : e ≠ ['.'] := by
    intro h; rw [h] at hlen; simp at hlen
  have h2 : e ≠ ['.', '.'] := by
    intro h; rw [h] at hlen; simp at hlen
  simp [cleanStep, h0, h1, h2]

/-- A cleaned path ends with the suffix of its input, when the suffix is free of
separators and at least three characters long (so the last element is neither `.`
nor `..`). -/
theorem Clean_append_suffix (a b : List Char) (hb : '/' ∉ b) (hlen : 3 ≤ b.length) :
    ∃ X, Clean (a ++ b) = X ++ b := by
  obtain ⟨init, last, _, h2⟩ := splitSlash_append a b hb
  have hreal : ∀ r st, cleanStep r st (last ++ b) = (last ++ b) :: st := fun r st =>
    cleanStep_real r st _ (by rw [List.length_append]; omega)
  unfold Clean
  simp only [h2, List.foldl_append, List.foldl_cons, List.foldl_nil, hreal, List.reverse_cons]
  obtain ⟨Y, hY⟩ := joinSlash_concat
    (List.foldl (cleanStep (decide ((a ++ b).head? = some '/'))) [] init).reverse (last ++ b)
  rw [hY]
  have hne : ∀ P : List Char, P ++ (Y ++ (last ++ b)) ≠ [] := by
    intro P h
    have := congrArg List.length h
    simp only [List.length_append, List.length_nil] at this
    omega
  rw [if_neg (hne _)]
  refine ⟨(if decide ((a ++ b).head? = some '/') = true then ['/'] else []) ++ (Y ++ last), ?_⟩
  simp only [List.append_assoc]

theorem Join_suffix (dir name sfx : String) (hb : '/' ∉ sfx.data) (hlen : 3 ≤ sfx.data.length) :
    ∃ X, (Join dir (name ++ sfx)).data = X ++ sfx.data := by
  have hne : name ++ sfx ≠ "" := by
    intro h
    have := congrArg (fun s => s.data.length) h
    simp only [String.data_append, List.length_append, List.length_nil] at this
    omega
  unfold Join
  by_cases hd : dir = ""
  · simp only [hd, ne_eq, not_true_eq_false, if_false, hne, not_false_eq_true, if_true,
      String.data_append]
    exact Clean_append_suffix _ _ hb hlen
  · simp only [ne_eq, hd, not_false_eq_true, if_true, String.data_append]
    have := Clean_append_suffix (dir.data ++ '/' :: name.data) sfx.data hb hlen
    simpa using this

/-- The certificate file and the key file of one name are different paths. -/
theorem Join_cert_ne_key (dir name : String) :
    Join dir (name ++ "-cert.pem") ≠ Join dir (name ++ "-key.pem") := by
  intro h
  obtain ⟨X, hX⟩ := Join_suffix dir name "-cert.pem" (by decide) (by decide)
  obtain ⟨Y, hY⟩ := Join_suffix dir name "-key.pem" (by decide) (by decide)
  rw [h, hY] at hX
  have := congrArg (fun l => l.reverse.take 5) hX
  simp at this

theorem caCertPath_ne_caKeyPath (dir : String) : Join dir caCertFile ≠ Join dir caKeyFile :=
  Join_cert_ne_key dir "ca"

/-! ## The certificate cache -/

theorem WriteFile_none {B : Type} (d d1 : Disk B) (path : String) (data : B)
    (w : WriteOutcome B) (h : WriteFile d path data w = (none, d1)) :
    w = .ok ∧ d1 = d.write path data := by
  cases w with
  | ok => simp [WriteFile] at h; exact ⟨rfl, h.symm⟩
  | failed err left => cases left <;> simp [WriteFile] at h

/-- A successful run of lines 73-92: the issuer returned the certificate, both writes
succeeded, the certificate is cached and both files hold the PEM encodings. -/
theorem issueAndStore_ok {B : Type} (E : Env B) (m : Manager B) (disk : Disk B)
    (domain certFile keyFile : String) (o : GetOracle B) (pre : List (Event B))
    (c : TLSCertificate B)
    (h : (issueAndStore E m disk domain certFile keyFile o pre).result = .ok c) :
    (generateCertSignedByCA E m domain o.issue).1 = .ok c ∧
    o.writeCert = .ok ∧ o.writeKey = .ok ∧
    (issueAndStore E m disk domain certFile keyFile o pre).manager = m.store domain c ∧
    (issueAndStore E m disk domain certFile keyFile o pre).disk =
      (disk.write certFile (E.pemEncode "CERTIFICATE" c.Certificate0)).write keyFile
        (E.pemEncode "RSA PRIVATE KEY" (E.MarshalPKCS1PrivateKey c.PrivateKey)) := by
  unfold issueAndStore at h ⊢
  rcases hg : generateCertSignedByCA E m domain o.issue with ⟨res, evs⟩
  rw [hg] at h
  cases res with
  | error err => simp at h
  | ok cert =>
    simp only at h ⊢
    rcases hw1 : WriteFile disk certFile (E.pemEncode "CERTIFICATE" cert.Certificate0)
      o.writeCert with ⟨e1, d1⟩
    rw [hw1] at h
    cases e1 with
    | some err => simp at h
    | none =>
      simp only at h ⊢
      rcases hw2 : WriteFile d1 keyFile
        (E.pemEncode "RSA PRIVATE KEY" (E.MarshalPKCS1PrivateKey cert.PrivateKey))
        o.writeKey with ⟨e2, d2⟩
      rw [hw2] at h
      cases e2 with
      | some err => simp at h
      | none =>
        simp only [Except.ok.injEq] at h
        subst h
        obtain ⟨ho1, hd1⟩ := WriteFile_none _ _ _ _ _ hw1
        obtain ⟨ho2, hd2⟩ := WriteFile_none _ _ _ _ _ hw2
        refine ⟨rfl, ho1, ho2, rfl, ?_⟩
        simp only [hd2, hd1]

/-- After a successful `GetCertificate` the cache holds the returned certificate under
the requested domain. -/
theorem GetCertificate_ok_cached {B : Type} (E : Env B) (m : Manager B) (disk : Disk B)
    (serverName : String) (o : GetOracle B) (c : TLSCertificate B)
    (h : (GetCertificate E m disk serverName o).result = .ok c) :
    (GetCertificate E m disk serverName o).manager.cache (requestedDomain serverName)
      = some c := by
  unfold GetCertificate at h ⊢
  simp only at h ⊢
  cases hc : m.cache (requestedDomain serverName) with
  | some cert =>
    simp only [hc, Except.ok.injEq] at h ⊢
    rw [h]
  | none =>
    simp only [hc] at h ⊢
    cases hd : disk (leafCertFile m.path (requestedDomain serverName)) with
    | some x =>
      simp only [hd] at h ⊢
      cases hl : LoadX509KeyPair E disk (leafCertFile m.path (requestedDomain serverName))
          (leafKeyFile m.path (requestedDomain serverName)) with
      | ok cert =>
        simp only [hl, Except.ok.injEq] at h ⊢
        simp [Manager.store, h]
      | error err =>
        simp only [hl] at h ⊢
        rw [(issueAndStore_ok _ _ _ _ _ _ _ _ _ h).2.2.2.1]
        simp [Manager.store]
    | none =>
      simp only [hd] at h ⊢
      rw [(issueAndStore_ok _ _ _ _ _ _ _ _ _ h).2.2.2.1]
      simp [Manager.store]

/-- C1 (cache coherence). Whenever `GetCertificate` succeeds and returns `c`, the next
`GetCertificate` call with the same server name (whatever the environment would supply to
it) returns `c` again, has no external effect at all (no issuance, no write, no log line)
and leaves the manager, hence its cache, and the disk exactly as the first call left
them. -/
theorem getCertificate_cache_coherence {B : Type} (E : Env B) (m : Manager B) (disk : Disk B)
    (serverName : String) (o o2 : GetOracle B) (c : TLSCertificate B)
    (h : (GetCertificate E m disk serverName o).result = .ok c) :
    (GetCertificate E (GetCertificate E m disk serverName o).manager
        (GetCertificate E m disk serverName o).disk serverName o2).result = .ok c ∧
    (GetCertificate E (GetCertificate E m disk serverName o).manager
        (GetCertificate E m disk serverName o).disk serverName o2).trace = [] ∧
    (GetCertificate E (GetCertificate E m disk serverName o).manager
        (GetCertificate E m disk serverName o).disk serverName o2).manager
      = (GetCertificate E m disk serverName o).manager ∧
    (GetCertificate E (GetCertificate E m disk serverName o).manager
        (GetCertificate E m disk serverName o).disk serverName o2).disk
      = (GetCertificate E m disk serverName o).disk := by
  have hc := GetCertificate_ok_cached E m disk serverName o c h
  generalize (GetCertificate E m disk serverName o).manager = m1 at hc ⊢
  generalize (GetCertificate E m disk serverName o).disk = d1
  unfold GetCertificate
  simp only [hc, and_self]

theorem getCertificate_cache_coherence_witness :
    (GetCertificate symEnv sampleManager emptyDisk "app.test" (sampleGetOracle 5)).result
      = .ok (sampleLeaf "app.test" 5) ∧
    (GetCertificate symEnv
        (GetCertificate symEnv sampleManager emptyDisk "app.test" (sampleGetOracle 5)).manager
        (GetCertificate symEnv sampleManager emptyDisk "app.test" (sampleGetOracle 5)).disk
        "app.test" (sampleGetOracle 6)).result = .ok (sampleLeaf "app.test" 5) :=
  ⟨by decide,
   (getCertificate_cache_coherence symEnv sampleManager emptyDisk "app.test"
      (sampleGetOracle 5) (sampleGetOracle 6) (sampleLeaf "app.test" 5) (by decide)).1⟩

/-- C4 (load from disk). When the requested domain is not in the cache and the pair
`<domain>-cert.pem` / `<domain>-key.pem` under the storage root loads
(`tls.LoadX509KeyPair` succeeds, which requires both files to exist), `GetCertificate`
returns the loaded certificate, stores exactly it in the cache under the domain and
leaves every other cache entry alone, leaves the disk as it was and has no external
effect: the leaf issuer is not invoked and no file is written. -/
theorem getCertificate_loads_from_disk {B : Type} (E : Env B) (m : Manager B) (disk : Disk B)
    (serverName : String) (o : GetOracle B) (cert : TLSCertificate B)
    (hmiss : m.cache (requestedDomain serverName) = none)
    (hload : LoadX509KeyPair E disk (leafCertFile m.path (requestedDomain serverName))
      (leafKeyFile m.path (requestedDomain serverName)) = .ok cert) :
    (GetCertificate E m disk serverName o).result = .ok cert ∧
    (GetCertificate E m disk serverName o).manager.cache (requestedDomain serverName)
      = some cert ∧
    (∀ d, d ≠ requestedDomain serverName →
      (GetCertificate E m disk serverName o).manager.cache d = m.cache d) ∧
    (GetCertificate E m disk serverName o).disk = disk ∧
    (GetCertificate E m disk serverName o).trace = [] := by
  have hex : ∃ x, disk (leafCertFile m.path (requestedDomain serverName)) = some x := by
    unfold LoadX509KeyPair at hload
    cases hd : disk (leafCertFile m.path (requestedDomain serverName)) with
    | none => simp [hd] at hload
    | some x => exact ⟨x, rfl⟩
  obtain ⟨x, hx⟩ := hex
  unfold GetCertificate
  simp only [hmiss, hx, hload, true_and]
  refine ⟨by simp [Manager.store], ?_, trivial⟩
  intro d hd
  simp [Manager.store, hd]

theorem getCertificate_loads_from_disk_witness :
    sampleManager.cache (requestedDomain "app.test") = none ∧
    LoadX509KeyPair symEnv leafDisk (leafCertFile sampleManager.path (requestedDomain "app.test"))
      (leafKeyFile sampleManager.path (requestedDomain "app.test"))
      = .ok (sampleLeaf "app.test" 9) ∧
    (GetCertificate symEnv sampleManager leafDisk "app.test" (sampleGetOracle 5)).result
      = .ok (sampleLeaf "app.test" 9) :=
  ⟨by decide, by decide,
   (getCertificate_loads_from_disk symEnv sampleManager leafDisk "app.test" (sampleGetOracle 5)
      (sampleLeaf "app.test" 9) (by decide) (by decide)).1⟩

/-- C5 (corrupt-leaf recovery). When the requested domain is not in the cache, its
certificate file exists, the pair fails to load, the issuer returns a certificate and
both writes succeed, `GetCertificate` returns that newly issued certificate without an
error, caches it under the domain, and leaves `<domain>-cert.pem` holding the PEM
encoding of the new certificate and `<domain>-key.pem` the PEM encoding of the new key,
every other file being as before. -/
theorem getCertificate_recovers_corrupt_leaf {B : Type} (E : Env B) (m : Manager B)
    (disk : Disk B) (serverName : String) (o : GetOracle B) (old : B) (err : Error)
    (cert : TLSCertificate B)
    (hmiss : m.cache (requestedDomain serverName) = none)
    (hexists : disk (leafCertFile m.path (requestedDomain serverName)) = some old)
    (hload : LoadX509KeyPair E disk (leafCertFile m.path (requestedDomain serverName))
      (leafKeyFile m.path (requestedDomain serverName)) = .error err)
    (hissue : (generateCertSignedByCA E m (requestedDomain serverName) o.issue).1 = .ok cert)
    (hw1 : o.writeCert = .ok) (hw2 : o.writeKey = .ok) :
    (GetCertificate E m disk serverName o).result = .ok cert ∧
    (GetCertificate E m disk serverName o).manager.cache (requestedDomain serverName)
      = some cert ∧
    (GetCertificate E m disk serverName o).disk
        (leafCertFile m.path (requestedDomain serverName))
      = some (E.pemEncode "CERTIFICATE" cert.Certificate0) ∧
    (GetCertificate E m disk serverName o).disk
        (leafKeyFile m.path (requestedDomain serverName))
      = some (E.pemEncode "RSA PRIVATE KEY" (E.MarshalPKCS1PrivateKey cert.PrivateKey)) ∧
    (∀ q, q ≠ leafCertFile m.path (requestedDomain serverName) →
      q ≠ leafKeyFile m.path (requestedDomain serverName) →
      (GetCertificate E m disk serverName o).disk q = disk q) := by
  have hne : leafCertFile m.path (requestedDomain serverName)
      ≠ leafKeyFile m.path (requestedDomain serverName) := Join_cert_ne_key _ _
  unfold GetCertificate
  simp only [hmiss, hexists, hload]
  unfold issueAndStore
  rcases hg : generateCertSignedByCA E m (requestedDomain serverName) o.issue with ⟨res, evs⟩
  rw [hg] at hissue
  simp only at hissue
  subst hissue
  simp only [hw1, hw2, WriteFile, true_and]
  refine ⟨by simp [Manager.store], ?_, ?_, ?_⟩
  · simp [Disk.write, hne]
  · simp [Disk.write]
  · intro q h1 h2
    simp [Disk.write, h1, h2]

theorem getCertificate_recovers_corrupt_leaf_witness :
    (GetCertificate symEnv sampleManager corruptLeafDisk "app.test" (sampleGetOracle 5)).result
      = .ok (sampleLeaf "app.test" 5) ∧
    (GetCertificate symEnv sampleManager corruptLeafDisk "app.test" (sampleGetOracle 5)).disk
        "/mnt/certificates/app.test-cert.pem"
      = some (.pem "CERTIFICATE" (.der (sampleLeafDER "app.test" 5))) :=
  ⟨(getCertificate_recovers_corrupt_leaf symEnv sampleManager corruptLeafDisk "app.test"
      (sampleGetOracle 5) (.junk 0)
      "tls: failed to find any PEM data in certificate input" (sampleLeaf "app.test" 5)
      (by decide) (by decide) (by decide) (by decide) rfl rfl).1,
   (getCertificate_recovers_corrupt_leaf symEnv sampleManager corruptLeafDisk "app.test"
      (sampleGetOracle 5) (.junk 0)
      "tls: failed to find any PEM data in certificate input" (sampleLeaf "app.test" 5)
      (by decide) (by decide) (by decide) (by decide) rfl rfl).2.2.1⟩

/-- C9 (empty server name). `GetCertificate` with an empty server name is
`GetCertificate` with server name `localhost`: same result, same manager (cache), same
disk, same effects; in particular it is served like any other domain and is not an
error on account of the empty name. -/
theorem getCertificate_empty_server_name {B : Type} (E : Env B) (m : Manager B)
    (disk : Disk B) (o : GetOracle B) :
    GetCertificate E m disk "" o = GetCertificate E m disk "localhost" o := by
  unfold GetCertificate
  have h : requestedDomain "" = requestedDomain "localhost" := by decide
  rw [h]

/-! ## The leaf issuer -/

theorem symEnv_createCertificateSpec : CreateCertificateSpec symEnv := by
  intro t p pub priv der h
  simp only [symEnv, symCreateCertificate] at h
  split at h
  · simp at h
  · split at h
    · simp at h
    · split at h
      · simp at h
      · simp only [Except.ok.injEq] at h
        subst h
        simp [symEnv, symParseCertificate]

theorem symEnv_x509KeyPairSpec : X509KeyPairSpec symEnv := by
  intro der keyPEM cert h
  simp only [symEnv, symX509KeyPair] at h
  split at h
  · rename_i heq
    simp only [SymBytes.pem.injEq] at heq
    obtain ⟨_, hder⟩ := heq
    subst hder
    repeat' split at h
    all_goals first
      | (simp only [Except.ok.injEq] at h; subst h; rfl)
      | simp at h
  · simp at h

/-- A successful run of `generateCertSignedByCA`: the key was generated, a serial was
drawn, the template was signed with the CA certificate as parent and the CA key, and
the result is the pair of the two PEM encodings. -/
theorem generateCertSignedByCA_ok {B : Type} (E : Env B) (m : Manager B) (domain : String)
    (o : IssueOracle) (cert : TLSCertificate B)
    (h : (generateCertSignedByCA E m domain o).1 = .ok cert) :
    ∃ priv serial der, o.key = .ok priv ∧ randInt o.entropy (1 <<< 62) = .ok serial ∧
      E.CreateCertificate (leafTemplate B domain serial o.now1 o.now2) m.caCert
        priv.PublicKey m.caKey = .ok der ∧
      E.X509KeyPair (E.pemEncode "CERTIFICATE" der)
        (E.pemEncode "RSA PRIVATE KEY" (E.MarshalPKCS1PrivateKey priv)) = .ok cert := by
  unfold generateCertSignedByCA at h
  cases hk : o.key with
  | error err => rw [hk] at h; simp at h
  | ok priv =>
    rw [hk] at h
    cases hr : randInt o.entropy (1 <<< 62) with
    | error err => rw [hr] at h; simp at h
    | ok serial =>
      rw [hr] at h
      cases hc : E.CreateCertificate (leafTemplate B domain serial o.now1 o.now2) m.caCert
          priv.PublicKey m.caKey with
      | error err => simp only [hc] at h; simp at h
      | ok der =>
        simp only [hc] at h
        exact ⟨priv, serial, der, rfl, rfl, hc, h⟩

theorem randInt_lt (entropy : Except Error Nat) (max serial : Nat) (hmax : 0 < max)
    (h : randInt entropy max = .ok serial) : serial < max := by
  unfold randInt at h
  cases entropy with
  | error err => simp at h
  | ok n =>
    simp only [Except.ok.injEq] at h
    subst h
    exact Nat.mod_lt _ hmax

/-- C7, amended (serial range). Whenever `generateCertSignedByCA` issues a certificate,
the certificate is the signed form of a template whose serial number is the value drawn
by `rand.Int(rand.Reader, 1<<62)`: an integer that is at least `0` and less than
`2 ^ 62`. -/
theorem generateCertSignedByCA_serial_range {B : Type} (E : Env B) (m : Manager B)
    (domain : String) (o : IssueOracle) (cert : TLSCertificate B)
    (h : (generateCertSignedByCA E m domain o).1 = .ok cert) :
    ∃ (priv : PrivateKey) (serial : Nat) (der : B),
      E.CreateCertificate (leafTemplate B domain serial o.now1 o.now2) m.caCert
        priv.PublicKey m.caKey = .ok der ∧
      E.X509KeyPair (E.pemEncode "CERTIFICATE" der)
        (E.pemEncode "RSA PRIVATE KEY" (E.MarshalPKCS1PrivateKey priv)) = .ok cert ∧
      0 ≤ (leafTemplate B domain serial o.now1 o.now2).SerialNumber ∧
      (leafTemplate B domain serial o.now1 o.now2).SerialNumber < 2 ^ 62 := by
  obtain ⟨priv, serial, der, _, hr, hc, hp⟩ := generateCertSignedByCA_ok E m domain o cert h
  have hlt := randInt_lt o.entropy (1 <<< 62) serial (by decide) hr
  refine ⟨priv, serial, der, hc, hp, ?_, ?_⟩
  · simp [leafTemplate]
  · have h62 : (1 <<< 62 : Nat) = 2 ^ 62 := by decide
    rw [h62] at hlt
    simp only [leafTemplate]
    exact_mod_cast hlt

theorem generateCertSignedByCA_serial_range_witness :
    (generateCertSignedByCA symEnv sampleManager "app.test" (sampleGetOracle 5).issue).1
      = .ok (sampleLeaf "app.test" 5) ∧
    ∃ (priv : PrivateKey) (serial : Nat) (der : SymBytes),
      symEnv.CreateCertificate
        (leafTemplate SymBytes "app.test" serial (sampleGetOracle 5).issue.now1
          (sampleGetOracle 5).issue.now2)
        sampleManager.caCert priv.PublicKey sampleManager.caKey = .ok der ∧
      symEnv.X509KeyPair (symEnv.pemEncode "CERTIFICATE" der)
        (symEnv.pemEncode "RSA PRIVATE KEY" (symEnv.MarshalPKCS1PrivateKey priv))
        = .ok (sampleLeaf "app.test" 5) ∧
      0 ≤ (leafTemplate SymBytes "app.test" serial (sampleGetOracle 5).issue.now1
          (sampleGetOracle 5).issue.now2).SerialNumber ∧
      (leafTemplate SymBytes "app.test" serial (sampleGetOracle 5).issue.now1
          (sampleGetOracle 5).issue.now2).SerialNumber < 2 ^ 62 :=
  ⟨by decide,
   generateCertSignedByCA_serial_range symEnv sampleManager "app.test"
     (sampleGetOracle 5).issue (sampleLeaf "app.test" 5) (by decide)⟩

/-- C7, counterexample. When the draw of `rand.Int` is `0`, issuance succeeds and the
leaf certificate has serial number `0`, which is not at least `1`. -/
theorem generateCertSignedByCA_serial_zero :
    randInt (sampleGetOracle 0).issue.entropy (1 <<< 62) = .ok 0 ∧
    (generateCertSignedByCA symEnv sampleManager "app.test" (sampleGetOracle 0).issue).1
      = .ok (sampleLeaf "app.test" 0) ∧
    (symEnv.ParseCertificate (sampleLeaf "app.test" 0).Certificate0).map
      (fun c => c.SerialNumber) = .ok 0 ∧
    ¬ (1 ≤ (leafTemplate SymBytes "app.test" 0 (sampleGetOracle 0).issue.now1
          (sampleGetOracle 0).issue.now2).SerialNumber) := by
  refine ⟨by decide, by decide, by decide, by decide⟩

/-- C8 (leaf fields and signer). Whenever `generateCertSignedByCA` issues a certificate
for `domain`, the first element of its chain is the output of `x509.CreateCertificate`
on a template with subject common name `domain`, DNS names `[domain]`, `IsCA = false`,
key usage digital-signature and key-encipherment and extended key usage
`[server authentication]`, with the CA certificate of the manager as parent and the CA
key of the manager as signing key; and, `x509.CreateCertificate` and `tls.X509KeyPair`
behaving as documented, that element parses to a certificate with those same fields
whose issuer is the subject of the CA certificate. -/
theorem generateCertSignedByCA_leaf_fields {B : Type} (E : Env B) (m : Manager B)
    (domain : String) (o : IssueOracle) (cert : TLSCertificate B)
    (hcreate : CreateCertificateSpec E) (hpair : X509KeyPairSpec E)
    (h : (generateCertSignedByCA E m domain o).1 = .ok cert) :
    ∃ (priv : PrivateKey) (serial : Nat) (leaf : Certificate B),
      E.CreateCertificate (leafTemplate B domain serial o.now1 o.now2) m.caCert
        priv.PublicKey m.caKey = .ok cert.Certificate0 ∧
      (leafTemplate B domain serial o.now1 o.now2).Subject.CommonName = domain ∧
      (leafTemplate B domain serial o.now1 o.now2).DNSNames = [domain] ∧
      (leafTemplate B domain serial o.now1 o.now2).IsCA = false ∧
      (leafTemplate B domain serial o.now1 o.now2).KeyUsage
        = KeyUsageDigitalSignature ||| KeyUsageKeyEncipherment ∧
      (leafTemplate B domain serial o.now1 o.now2).ExtKeyUsage = [ExtKeyUsageServerAuth] ∧
      E.ParseCertificate cert.Certificate0 = .ok leaf ∧
      leaf.Subject.CommonName = domain ∧
      leaf.DNSNames = [domain] ∧
      leaf.IsCA = false ∧
      leaf.KeyUsage = KeyUsageDigitalSignature ||| KeyUsageKeyEncipherment ∧
      leaf.ExtKeyUsage = [ExtKeyUsageServerAuth] ∧
      leaf.Issuer = m.caCert.Subject := by
  obtain ⟨priv, serial, der, _, _, hc, hp⟩ := generateCertSignedByCA_ok E m domain o cert h
  have hder := hpair der _ cert hp
  obtain ⟨leaf, hparse, _, _, hiss, hsub, hku, heku, hdns, hca⟩ := hcreate _ _ _ _ _ hc
  subst hder
  refine ⟨priv, serial, leaf, hc, rfl, rfl, rfl, rfl, rfl, hparse, ?_, ?_, ?_, ?_, ?_, hiss⟩
  · rw [hsub]; rfl
  · rw [hdns]; rfl
  · rw [hca]; rfl
  · rw [hku]; simp only [leafTemplate]; decide
  · rw [heku]; rfl

theorem generateCertSignedByCA_leaf_fields_witness :
    (generateCertSignedByCA symEnv sampleManager "app.test" (sampleGetOracle 5).issue).1
      = .ok (sampleLeaf "app.test" 5) ∧
    ∃ (priv : PrivateKey) (serial : Nat) (leaf : Certificate SymBytes),
      symEnv.CreateCertificate
        (leafTemplate SymBytes "app.test" serial (sampleGetOracle 5).issue.now1
          (sampleGetOracle 5).issue.now2)
        sampleManager.caCert priv.PublicKey sampleManager.caKey
        = .ok (sampleLeaf "app.test" 5).Certificate0 ∧
      (leafTemplate SymBytes "app.test" serial (sampleGetOracle 5).issue.now1
          (sampleGetOracle 5).issue.now2).Subject.CommonName = "app.test" ∧
      (leafTemplate SymBytes "app.test" serial (sampleGetOracle 5).issue.now1
          (sampleGetOracle 5).issue.now2).DNSNames = ["app.test"] ∧
      (leafTemplate SymBytes "app.test" serial (sampleGetOracle 5).issue.now1
          (sampleGetOracle 5).issue.now2).IsCA = false ∧
      (leafTemplate SymBytes "app.test" serial (sampleGetOracle 5).issue.now1
          (sampleGetOracle 5).issue.now2).KeyUsage
        = KeyUsageDigitalSignature ||| KeyUsageKeyEncipherment ∧
      (leafTemplate SymBytes "app.test" serial (sampleGetOracle 5).issue.now1
          (sampleGetOracle 5).issue.now2).ExtKeyUsage = [ExtKeyUsageServerAuth] ∧
      symEnv.ParseCertificate (sampleLeaf "app.test" 5).Certificate0 = .ok leaf ∧
      leaf.Subject.CommonName = "app.test" ∧
      leaf.DNSNames = ["app.test"] ∧
      leaf.IsCA = false ∧
      leaf.KeyUsage = KeyUsageDigitalSignature ||| KeyUsageKeyEncipherment ∧
      leaf.ExtKeyUsage = [ExtKeyUsageServerAuth] ∧
      leaf.Issuer = sampleManager.caCert.Subject :=
  ⟨by decide,
   generateCertSignedByCA_leaf_fields symEnv sampleManager "app.test"
     (sampleGetOracle 5).issue (sampleLeaf "app.test" 5)
     symEnv_createCertificateSpec symEnv_x509KeyPairSpec (by decide)⟩

/-! ## The CA store -/

/-- The generation code when every step succeeds: it returns the template and the key,
and writes the certificate file, then the key file. -/
theorem createCA_ok {B : Type} (E : Env B) (disk : Disk B) (certPath keyPath : String)
    (o : CAOracle B) (caKey : PrivateKey) (der : B)
    (hkey : o.key = .ok caKey)
    (hsign : E.CreateCertificate (caTemplate B o.now1 o.now2) (caTemplate B o.now1 o.now2)
      caKey.PublicKey caKey = .ok der)
    (hw1 : o.writeCert = .ok) (hw2 : o.writeKey = .ok) :
    (createCA E disk certPath keyPath o).result = .ok (caTemplate B o.now1 o.now2, caKey) ∧
    (createCA E disk certPath keyPath o).disk =
      (disk.write certPath (E.pemEncode "CERTIFICATE" der)).write keyPath
        (E.pemEncode "RSA PRIVATE KEY" (E.MarshalPKCS1PrivateKey caKey)) ∧
    (createCA E disk certPath keyPath o).trace =
      [.generateKey, .createCertificate,
       .writeFile certPath (E.pemEncode "CERTIFICATE" der) 0o644,
       .writeFile keyPath
         (E.pemEncode "RSA PRIVATE KEY" (E.MarshalPKCS1PrivateKey caKey)) 0o600] := by
  unfold createCA
  simp only [hkey, hsign, hw1, hw2, WriteFile, and_self]

/-- C3, amended (CA bootstrap). Provided key generation, signing and the two writes
succeed: when either CA file is missing, `loadOrCreateCA` returns a new CA (the
template and the generated key) and leaves `ca-cert.pem` and `ca-key.pem` holding the
PEM encodings of the new certificate and key, every other file being as before; when
both files are present but one of them fails to PEM-decode or to parse,
`loadOrCreateCA` returns an error, generates nothing and writes nothing. -/
theorem loadOrCreateCA_missing_or_malformed {B : Type} (E : Env B) (disk : Disk B)
    (path : String) (o : CAOracle B) (caKey : PrivateKey) (der : B)
    (hkey : o.key = .ok caKey)
    (hsign : E.CreateCertificate (caTemplate B o.now1 o.now2) (caTemplate B o.now1 o.now2)
      caKey.PublicKey caKey = .ok der)
    (hw1 : o.writeCert = .ok) (hw2 : o.writeKey = .ok) :
    ((disk (Join path caCertFile) = none ∨ disk (Join path caKeyFile) = none) →
      (loadOrCreateCA E disk path o).result = .ok (caTemplate B o.now1 o.now2, caKey) ∧
      (loadOrCreateCA E disk path o).disk (Join path caCertFile)
        = some (E.pemEncode "CERTIFICATE" der) ∧
      (loadOrCreateCA E disk path o).disk (Join path caKeyFile)
        = some (E.pemEncode "RSA PRIVATE KEY" (E.MarshalPKCS1PrivateKey caKey)) ∧
      (∀ q, q ≠ Join path caCertFile → q ≠ Join path caKeyFile →
        (loadOrCreateCA E disk path o).disk q = disk q)) ∧
    (∀ certPEM keyPEM, disk (Join path caCertFile) = some certPEM →
      disk (Join path caKeyFile) = some keyPEM → ¬ caFilesParse E certPEM keyPEM →
      (∃ err, (loadOrCreateCA E disk path o).result = .error err) ∧
      (loadOrCreateCA E disk path o).disk = disk ∧
      (loadOrCreateCA E disk path o).trace = []) := by
  have hne := caCertPath_ne_caKeyPath path
  have hgen := createCA_ok E disk (Join path caCertFile) (Join path caKeyFile) o caKey der
    hkey hsign hw1 hw2
  constructor
  · intro hmissing
    have hrun : loadOrCreateCA E disk path o
        = createCA E disk (Join path caCertFile) (Join path caKeyFile) o := by
      unfold loadOrCreateCA
      rcases hmissing with h | h
      · simp only [h]
      · cases hc : disk (Join path caCertFile) <;> simp only [hc, h]
    rw [hrun, hgen.1, hgen.2.1]
    refine ⟨rfl, ?_, ?_, ?_⟩
    · simp [Disk.write, hne]
    · simp [Disk.write]
    · intro q h1 h2
      simp [Disk.write, h1, h2]
  · intro certPEM keyPEM hc hk hbad
    unfold loadOrCreateCA
    simp only [hc, hk]
    cases h1 : E.pemDecode certPEM with
    | none => exact ⟨⟨_, rfl⟩, rfl, rfl⟩
    | some b1 =>
      dsimp only
      cases h2 : E.ParseCertificate b1.Bytes with
      | error err => exact ⟨⟨_, rfl⟩, rfl, rfl⟩
      | ok c =>
        dsimp only
        cases h3 : E.pemDecode keyPEM with
        | none => exact ⟨⟨_, rfl⟩, rfl, rfl⟩
        | some b2 =>
          dsimp only
          cases h4 : E.ParsePKCS1PrivateKey b2.Bytes with
          | error err => exact ⟨⟨_, rfl⟩, rfl, rfl⟩
          | ok k => exact absurd ⟨b1, c, b2, k, h1, h2, h3, h4⟩ hbad

theorem loadOrCreateCA_missing_or_malformed_witness :
    emptyDisk (Join "/mnt/certificates" caCertFile) = none ∧
    (loadOrCreateCA symEnv emptyDisk "/mnt/certificates" sampleCAOracle).result
      = .ok (caTemplate SymBytes sampleCAOracle.now1 sampleCAOracle.now2, sampleCAKey) ∧
    (loadOrCreateCA symEnv corruptCADisk "/mnt/certificates" sampleCAOracle).trace = [] :=
  ⟨by decide,
   ((loadOrCreateCA_missing_or_malformed symEnv emptyDisk "/mnt/certificates" sampleCAOracle
      sampleCAKey (.der sampleCADER) rfl (by decide) rfl rfl).1 (Or.inl (by decide))).1,
   ((loadOrCreateCA_missing_or_malformed symEnv corruptCADisk "/mnt/certificates"
      sampleCAOracle sampleCAKey (.der sampleCADER) rfl (by decide) rfl rfl).2
      (.junk 0) (.pem "RSA PRIVATE KEY" (.pkcs1 sampleCAKey)) (by decide) (by decide)
      (by rintro ⟨b1, _, _, _, h1, _⟩; simp [symEnv] at h1)).2.2⟩

/-- C3, counterexample. With `ca-cert.pem` present but not PEM-decodable and a run in
which key generation, signing and both writes would succeed, `loadOrCreateCA` returns
the error `failed to decode CA cert PEM`, generates nothing and leaves the damaged
file in place. -/
theorem loadOrCreateCA_malformed_is_error :
    corruptCADisk (Join "/mnt/certificates" caCertFile) = some (.junk 0) ∧
    symEnv.pemDecode (.junk 0) = none ∧
    sampleCAOracle.key = .ok sampleCAKey ∧
    sampleCAOracle.writeCert = .ok ∧ sampleCAOracle.writeKey = .ok ∧
    (loadOrCreateCA symEnv corruptCADisk "/mnt/certificates" sampleCAOracle).result
      = .error "failed to decode CA cert PEM" ∧
    (loadOrCreateCA symEnv corruptCADisk "/mnt/certificates" sampleCAOracle).trace = [] ∧
    (loadOrCreateCA symEnv corruptCADisk "/mnt/certificates" sampleCAOracle).disk
      (Join "/mnt/certificates" caCertFile) = some (.junk 0) := by
  refine ⟨by decide, by decide, by decide, by decide, by decide, by decide, by decide,
    by decide⟩

/-- C2, the code at the failing input. On an empty storage root the first
`loadOrCreateCA` call generates the CA and returns the unsigned template; the second
call on the resulting storage root generates nothing and writes nothing, returns the
same private key, and returns the certificate parsed from `ca-cert.pem`, which is not
the certificate the first call returned: the template has no DER encoding, no issuer
and no public key. -/
theorem loadOrCreateCA_twice_differs :
    (loadOrCreateCA symEnv emptyDisk "/mnt/certificates" sampleCAOracle).result
      = .ok (caTemplate SymBytes 1700000000123456789 1700000000123456999, sampleCAKey) ∧
    (loadOrCreateCA symEnv
        (loadOrCreateCA symEnv emptyDisk "/mnt/certificates" sampleCAOracle).disk
        "/mnt/certificates" failingCAOracle).result = .ok (sampleCACert, sampleCAKey) ∧
    (loadOrCreateCA symEnv
        (loadOrCreateCA symEnv emptyDisk "/mnt/certificates" sampleCAOracle).disk
        "/mnt/certificates" failingCAOracle).trace = [] ∧
    (caTemplate SymBytes 1700000000123456789 1700000000123456999).Raw = none ∧
    sampleCACert.Raw = some (.der sampleCADER) ∧
    (caTemplate SymBytes 1700000000123456789 1700000000123456999).Issuer = {} ∧
    sampleCACert.Issuer = caSubject ∧
    caTemplate SymBytes 1700000000123456789 1700000000123456999 ≠ sampleCACert := by
  refine ⟨by decide, by decide, by decide, by decide, by decide, by decide, by decide,
    by decide⟩

/-- C6, the code at the failing input. For the server name `ca` the leaf file names are
the CA file names. On a storage root whose CA certificate carries the PEM label
`X509 CERTIFICATE`, `NewManager` loads the CA without writing; `GetCertificate` for
`ca` then finds the file, fails to load it as a pair, issues a leaf certificate and
overwrites `ca-cert.pem` and `ca-key.pem` with the leaf certificate and the leaf key. -/
theorem getCertificate_overwrites_ca_files :
    leafCertFile "/mnt/certificates" (requestedDomain "ca")
      = Join "/mnt/certificates" caCertFile ∧
    leafKeyFile "/mnt/certificates" (requestedDomain "ca")
      = Join "/mnt/certificates" caKeyFile ∧
    (NewManager symEnv relabelledCADisk "/mnt/certificates" sampleCAOracle).result
      = .ok loadedManager ∧
    (NewManager symEnv relabelledCADisk "/mnt/certificates" sampleCAOracle).trace = [] ∧
    (GetCertificate symEnv loadedManager relabelledCADisk "ca" (sampleGetOracle 7)).result
      = .ok (sampleLeaf "ca" 7) ∧
    relabelledCADisk (Join "/mnt/certificates" caCertFile)
      = some (.pem "X509 CERTIFICATE" (.der sampleCADER)) ∧
    (GetCertificate symEnv loadedManager relabelledCADisk "ca" (sampleGetOracle 7)).disk
        (Join "/mnt/certificates" caCertFile)
      = some (.pem "CERTIFICATE" (.der (sampleLeafDER "ca" 7))) ∧
    relabelledCADisk (Join "/mnt/certificates" caKeyFile)
      = some (.pem "RSA PRIVATE KEY" (.pkcs1 sampleCAKey)) ∧
    (GetCertificate symEnv loadedManager relabelledCADisk "ca" (sampleGetOracle 7)).disk
        (Join "/mnt/certificates" caKeyFile)
      = some (.pem "RSA PRIVATE KEY" (.pkcs1 sampleLeafKey)) := by
  refine ⟨by decide, by decide, rfl, by decide, by decide, by decide, by decide, by decide,
    by decide⟩

/-- A successful run of the generation code, read backwards. -/
theorem createCA_ok_inv {B : Type} (E : Env B) (disk : Disk B) (certPath keyPath : String)
    (o : CAOracle B) (c : Certificate B) (k : PrivateKey)
    (h : (createCA E disk certPath keyPath o).result = .ok (c, k)) :
    ∃ der, c = caTemplate B o.now1 o.now2 ∧
      E.CreateCertificate (caTemplate B o.now1 o.now2) (caTemplate B o.now1 o.now2)
        k.PublicKey k = .ok der ∧
      (createCA E disk certPath keyPath o).disk =
        (disk.write certPath (E.pemEncode "CERTIFICATE" der)).write keyPath
          (E.pemEncode "RSA PRIVATE KEY" (E.MarshalPKCS1PrivateKey k)) ∧
      (createCA E disk certPath keyPath o).trace ≠ [] := by
  unfold createCA at h ⊢
  cases hk : o.key with
  | error err => rw [hk] at h; simp at h
  | ok caKey =>
    rw [hk] at h
    dsimp only at h ⊢
    cases hc : E.CreateCertificate (caTemplate B o.now1 o.now2) (caTemplate B o.now1 o.now2)
        caKey.PublicKey caKey with
    | error err => rw [hc] at h; simp at h
    | ok der =>
      rw [hc] at h
      dsimp only at h ⊢
      rcases hw1 : WriteFile disk certPath (E.pemEncode "CERTIFICATE" der) o.writeCert
        with ⟨e1, d1⟩
      rw [hw1] at h
      cases e1 with
      | some err => simp at h
      | none =>
        dsimp only at h ⊢
        rcases hw2 : WriteFile d1 keyPath
          (E.pemEncode "RSA PRIVATE KEY" (E.MarshalPKCS1PrivateKey caKey)) o.writeKey
          with ⟨e2, d2⟩
        rw [hw2] at h
        cases e2 with
        | some err => simp at h
        | none =>
          simp only [Except.ok.injEq, Prod.mk.injEq] at h
          obtain ⟨hc1, hk1⟩ := h
          subst hk1
          obtain ⟨_, hd1⟩ := WriteFile_none _ _ _ _ _ hw1
          obtain ⟨_, hd2⟩ := WriteFile_none _ _ _ _ _ hw2
          refine ⟨der, hc1.symm, hc, ?_, by simp⟩
          simp only [hd2, hd1]

/-- What does hold when `loadOrCreateCA` runs twice. After a successful first call, a
second call on the resulting storage root, whatever the environment would supply to it,
generates nothing, writes nothing, and returns the same private key together with the
certificate parsed from `ca-cert.pem`; that certificate is the one the first call
returned when the first call itself loaded the CA (had no effects). -/
theorem loadOrCreateCA_reload {B : Type} (E : Env B) (disk : Disk B) (path : String)
    (o o2 : CAOracle B) (c1 : Certificate B) (k1 : PrivateKey)
    (hpem : PemRoundTrip E) (hpkcs : PKCS1RoundTrip E) (hcreate : CreateCertificateSpec E)
    (h : (loadOrCreateCA E disk path o).result = .ok (c1, k1)) :
    ∃ c2,
      (loadOrCreateCA E (loadOrCreateCA E disk path o).disk path o2).result = .ok (c2, k1) ∧
      (loadOrCreateCA E (loadOrCreateCA E disk path o).disk path o2).trace = [] ∧
      (loadOrCreateCA E (loadOrCreateCA E disk path o).disk path o2).disk
        = (loadOrCreateCA E disk path o).disk ∧
      (∃ certPEM blk, (loadOrCreateCA E disk path o).disk (Join path caCertFile) = some certPEM ∧
        E.pemDecode certPEM = some blk ∧ E.ParseCertificate blk.Bytes = .ok c2) ∧
      ((loadOrCreateCA E disk path o).trace = [] → c2 = c1) := by
  have hne := caCertPath_ne_caKeyPath path
  -- the generation branch
  have hgen : loadOrCreateCA E disk path o
      = createCA E disk (Join path caCertFile) (Join path caKeyFile) o →
      ∃ c2,
      (loadOrCreateCA E (loadOrCreateCA E disk path o).disk path o2).result = .ok (c2, k1) ∧
      (loadOrCreateCA E (loadOrCreateCA E disk path o).disk path o2).trace = [] ∧
      (loadOrCreateCA E (loadOrCreateCA E disk path o).disk path o2).disk
        = (loadOrCreateCA E disk path o).disk ∧
      (∃ certPEM blk, (loadOrCreateCA E disk path o).disk (Join path caCertFile) = some certPEM ∧
        E.pemDecode certPEM = some blk ∧ E.ParseCertificate blk.Bytes = .ok c2) ∧
      ((loadOrCreateCA E disk path o).trace = [] → c2 = c1) := by
    intro hrun
    rw [hrun] at h ⊢
    obtain ⟨der, _, hsign, hdisk, htrace⟩ := createCA_ok_inv E disk _ _ o c1 k1 h
    obtain ⟨c2, hparse, _⟩ := hcreate _ _ _ _ _ hsign
    have hcert : (createCA E disk (Join path caCertFile) (Join path caKeyFile) o).disk
        (Join path caCertFile) = some (E.pemEncode "CERTIFICATE" der) := by
      rw [hdisk]; simp [Disk.write, hne]
    have hkey : (createCA E disk (Join path caCertFile) (Join path caKeyFile) o).disk
        (Join path caKeyFile)
        = some (E.pemEncode "RSA PRIVATE KEY" (E.MarshalPKCS1PrivateKey k1)) := by
      rw [hdisk]; simp [Disk.write]
    have hp1 := hpem "CERTIFICATE" der
    have hp2 := hpem "RSA PRIVATE KEY" (E.MarshalPKCS1PrivateKey k1)
    have hp3 := hpkcs k1
    refine ⟨c2, ?_, ?_, ?_, ⟨_, _, hcert, hp1, hparse⟩, fun ht => absurd ht htrace⟩
    all_goals
      unfold loadOrCreateCA
      simp only [hcert, hkey, hp1, hp2, hparse, hp3]
  unfold loadOrCreateCA at h
  cases hc : disk (Join path caCertFile) with
  | none => exact hgen (by unfold loadOrCreateCA; simp only [hc])
  | some certPEM =>
    cases hk : disk (Join path caKeyFile) with
    | none => exact hgen (by unfold loadOrCreateCA; simp only [hc, hk])
    | some keyPEM =>
      simp only [hc, hk] at h
      cases h1 : E.pemDecode certPEM with
      | none => simp [h1] at h
      | some b1 =>
        simp only [h1] at h
        cases h2 : E.ParseCertificate b1.Bytes with
        | error err => simp [h2] at h
        | ok c =>
          simp only [h2] at h
          cases h3 : E.pemDecode keyPEM with
          | none => simp [h3] at h
          | some b2 =>
            simp only [h3] at h
            cases h4 : E.ParsePKCS1PrivateKey b2.Bytes with
            | error err => simp [h4] at h
            | ok k =>
              simp only [h4, Except.ok.injEq, Prod.mk.injEq] at h
              obtain ⟨hcc, hkk⟩ := h
              subst hcc hkk
              have hrun : loadOrCreateCA E disk path o = ⟨.ok (c, k), disk, []⟩ := by
                unfold loadOrCreateCA
                simp only [hc, hk, h1, h2, h3, h4]
              rw [hrun]
              refine ⟨c, ?_, ?_, ?_, ⟨certPEM, b1, hc, h1, h2⟩, fun _ => rfl⟩
              all_goals
                unfold loadOrCreateCA
                simp only [hc, hk, h1, h2, h3, h4]

/-- Whatever happens, `GetCertificate` leaves alone every file other than the
certificate file and the key file of the requested domain. -/
theorem GetCertificate_frame {B : Type} (E : Env B) (m : Manager B) (disk : Disk B)
    (serverName : String) (o : GetOracle B) (q : String)
    (h1 : q ≠ leafCertFile m.path (requestedDomain serverName))
    (h2 : q ≠ leafKeyFile m.path (requestedDomain serverName)) :
    (GetCertificate E m disk serverName o).disk q = disk q := by
  have hissue : ∀ pre, (issueAndStore E m disk (requestedDomain serverName)
      (leafCertFile m.path (requestedDomain serverName))
      (leafKeyFile m.path (requestedDomain serverName)) o pre).disk q = disk q := by
    intro pre
    unfold issueAndStore
    rcases generateCertSignedByCA E m (requestedDomain serverName) o.issue with ⟨res, evs⟩
    cases res with
    | error err => rfl
    | ok cert =>
      dsimp only
      rcases hw1 : o.writeCert with _ | ⟨e1, l1⟩
      · rcases hw2 : o.writeKey with _ | ⟨e2, l2⟩
        · simp [WriteFile, Disk.write, h1, h2]
        · cases l2 <;> simp [WriteFile, Disk.write, h1, h2]
      · cases l1 <;> simp [WriteFile, Disk.write, h1]
  unfold GetCertificate
  dsimp only
  cases m.cache (requestedDomain serverName) with
  | some cert => rfl
  | none =>
    dsimp only
    cases disk (leafCertFile m.path (requestedDomain serverName)) with
    | none => exact hissue _
    | some x =>
      dsimp only
      cases LoadX509KeyPair E disk (leafCertFile m.path (requestedDomain serverName))
          (leafKeyFile m.path (requestedDomain serverName)) with
      | ok cert => rfl
      | error err => exact hissue _

end LocalRouter
